import Mathlib

/-!
Verification of the bandwidth-part / component-carrier configuration model and the
HARQ feedback plumbing of the Lena (ns-3 mmwave / NR) module.

The definitions below are a shallow embedding of:
  * `ComponentCarrierBandwidthPartCreator` and its validation / query / mutation
    methods from `mmwave-helper.cc`;
  * the transport-block bookkeeping of `MmWaveSpectrumPhy` (header
    `mmwave-spectrum-phy.h`; the end-of-reception step itself is modelled from
    the specification, as noted at its definition);
  * `MmWaveUeNetDevice::EnqueueDlHarqFeedback` and
    `MmWaveUeNetDevice::GetPhyOnCenterFreq` from `mmwave-ue-net-device.cc`.

Modelling conventions:
  * Frequencies are C++ `double` values holding a number of hertz.  Every
    frequency appearing in the repository and in the specification is an
    integral number of hertz, and the code only ever subtracts and compares
    frequencies; both operations are exact on IEEE doubles for these
    magnitudes, so frequencies are embedded as `Int`.
  * Bandwidths and identifiers are unsigned C++ integers, embedded as `Nat`;
    where the code accumulates into a `uint32_t`, the embedding reduces
    modulo `2^32` at each addition, mirroring unsigned wrap-around.
  * `NS_ABORT_MSG` / `NS_FATAL_ERROR` / failed `NS_ASSERT` are embedded as
    `Except.error` carrying the abort message.
  * `std::sort` with a strict-weak-order comparator is embedded as
    `List.insertionSort` with the reflexive closure of the comparator: any
    output of `std::sort` is ordered exactly when adjacent elements satisfy
    that reflexive relation, and no code path depends on the order of ties.
  * `std::map` (iterated in ascending key order) is embedded as an
    association list assumed ordered by key.
-/

namespace LenaSpec

/-- `2^32`, the modulus of C++ `uint32_t` arithmetic. -/
def U32 : Nat := 4294967296

/-- Contiguity mode of the component carriers of an operation band
(`CONTIGUOUS` / `NON_CONTIGUOUS` in `mmwave-helper.h`; the enum itself is
declared in the header, which is not part of the sources; its two values are
taken from their uses in `mmwave-helper.cc` and from the spec data model). -/
inductive ContiguousMode
  | CONTIGUOUS
  | NON_CONTIGUOUS
deriving DecidableEq, Repr, Inhabited

/-- Primary / secondary state of a component carrier (the `PRIMARY` value is
used in `mmwave-helper.cc`; the enum is declared in the missing header; the
spec data model says "primary-or-secondary flag"). -/
inductive CcState
  | PRIMARY
  | SECONDARY
deriving DecidableEq, Repr, Inhabited

/-- `ComponentCarrierBandwidthPartElement` (spec: BandwidthPartElement): one
bandwidth part.  Field set from its uses in `mmwave-helper.cc` and the spec
data model (the defining header is not among the sources). -/
structure ComponentCarrierBandwidthPartElement where
  m_bwpId : Nat
  m_numerology : Nat
  m_centralFrequency : Int
  m_lowerFrequency : Int
  m_higherFrequency : Int
  m_bandwidth : Nat
deriving DecidableEq, Repr, Inhabited

/-- `ComponentCarrierInfo`: one component carrier together with its bandwidth
parts.  Field set from its uses in `mmwave-helper.cc` and the spec data model. -/
structure ComponentCarrierInfo where
  m_ccId : Nat
  m_primaryCc : CcState
  m_centralFrequency : Int
  m_lowerFrequency : Int
  m_higherFrequency : Int
  m_bandwidth : Nat
  m_activeBwp : Nat
  m_bwp : List ComponentCarrierBandwidthPartElement
deriving DecidableEq, Repr, Inhabited

/-- `OperationBandInfo`: an operation band and its component carriers.  Field
set from its uses in `mmwave-helper.cc` and the spec data model. -/
structure OperationBandInfo where
  m_bandId : Nat
  m_centralFrequency : Int
  m_lowerFrequency : Int
  m_higherFrequency : Int
  m_bandwidth : Nat
  m_numCarriers : Nat
  m_contiguousCc : ContiguousMode
  m_cc : List ComponentCarrierInfo
deriving DecidableEq, Repr, Inhabited

/-- `ComponentCarrierBandwidthPartCreator` (spec: SpectrumPartitionValidator):
the carrier-aggregation topology under construction. -/
structure ComponentCarrierBandwidthPartCreator where
  m_maxBands : Nat
  m_bands : List OperationBandInfo
  m_numBands : Nat
  m_numCcs : Nat
  m_numBwps : Nat
deriving DecidableEq, Repr, Inhabited

/-- Modelled from the spec: the system maximum of inter-band aggregated
carriers `MAX_CC_INTER_BAND` ("total aggregated carriers ≤ a system maximum").
The constant is defined in the missing header `mmwave-helper.h`; its exact
value does not matter for any theorem below. -/
def MAX_CC_INTER_BAND : Nat := 16

/-- Comparator `CarrierFrequencyCompare` (mmwave-helper.cc:1158), reflexively
closed for use with `List.insertionSort` (see the conventions above). -/
def CarrierFrequencyCompare (lhs rhs : ComponentCarrierInfo) : Prop :=
  lhs.m_centralFrequency ≤ rhs.m_centralFrequency

instance : DecidableRel CarrierFrequencyCompare := fun a b =>
  inferInstanceAs (Decidable (a.m_centralFrequency ≤ b.m_centralFrequency))

/-- Comparator `BwpFrequencyCompare` (mmwave-helper.cc:1164), reflexively closed. -/
def BwpFrequencyCompare (lhs rhs : ComponentCarrierBandwidthPartElement) : Prop :=
  lhs.m_centralFrequency ≤ rhs.m_centralFrequency

instance : DecidableRel BwpFrequencyCompare := fun a b =>
  inferInstanceAs (Decidable (a.m_centralFrequency ≤ b.m_centralFrequency))

/-- Comparator `BwpIdCompare` (mmwave-helper.cc:1170), reflexively closed. -/
def BwpIdCompare (lhs rhs : ComponentCarrierBandwidthPartElement) : Prop :=
  lhs.m_bwpId ≤ rhs.m_bwpId

instance : DecidableRel BwpIdCompare := fun a b =>
  inferInstanceAs (Decidable (a.m_bwpId ≤ b.m_bwpId))

/-- `std::sort(band.m_cc.begin(), band.m_cc.end(), CarrierFrequencyCompare)`. -/
def sortCcsByFreq (l : List ComponentCarrierInfo) : List ComponentCarrierInfo :=
  l.insertionSort CarrierFrequencyCompare

/-- The loop of `ComponentCarrierBandwidthPartCreator::GetCcContiguousnessState`
(mmwave-helper.cc:1495-1501): for `i` ranging over adjacent positions of the
sorted carrier list, return `NON_CONTIGUOUS` as soon as
`cc[i].m_lowerFrequency - cc[i+1].m_higherFrequency > freqSeparation`
(this is the comparison literally written in the source), else `CONTIGUOUS`.
The C++ iterates indices `0 ≤ i < m_numCarriers - 1`; the structural recursion
below coincides with it whenever `m_numCarriers` equals the carrier count. -/
def ccContiguityScan (freqSeparation : Nat) :
    List ComponentCarrierInfo → ContiguousMode
  | c0 :: c1 :: rest =>
    if c0.m_lowerFrequency - c1.m_higherFrequency > (freqSeparation : Int) then
      ContiguousMode.NON_CONTIGUOUS
    else
      ccContiguityScan freqSeparation (c1 :: rest)
  | _ => ContiguousMode.CONTIGUOUS

/-- `ComponentCarrierBandwidthPartCreator::GetCcContiguousnessState`
(mmwave-helper.cc:1486-1503).  The band is passed by reference and its carrier
vector is sorted in place; the sorted band is not otherwise observed, so only
the returned mode (or the abort) is modelled. -/
def GetCcContiguousnessState (band : OperationBandInfo) (freqSeparation : Nat) :
    Except String ContiguousMode :=
  if band.m_numCarriers < 1 then
    Except.error "There should be more than 1 CC to determine if they are contiguous"
  else
    Except.ok (ccContiguityScan freqSeparation (sortCcsByFreq band.m_cc))

/-- The range-for of `CheckBwpsInCc` (mmwave-helper.cc:1403-1414): walk the
(frequency-sorted) BWP list accumulating `totalBandwidth` into a `uint32_t`,
aborting at the first BWP whose bounds leave the carrier, and recording whether
the carrier's active BWP id was seen. -/
def bwpLimitScan (cc : ComponentCarrierInfo) :
    List ComponentCarrierBandwidthPartElement → Nat → Bool →
    Except String (Nat × Bool)
  | [], total, activeFound => Except.ok (total, activeFound)
  | a :: rest, total, activeFound =>
    let total' := (total + a.m_bandwidth) % U32
    if a.m_higherFrequency > cc.m_higherFrequency ∨ a.m_lowerFrequency < cc.m_lowerFrequency then
      Except.error "BWP part is out of the CC"
    else
      bwpLimitScan cc rest total' (activeFound || (a.m_bwpId == cc.m_activeBwp))

/-- The fourth check of `CheckBwpsInCc` (mmwave-helper.cc:1422-1428): some pair
of BWPs adjacent in the frequency-sorted list overlaps, i.e.
`bwp[a].m_higherFrequency > bwp[a+1].m_lowerFrequency`. -/
def bwpAdjacentOverlap : List ComponentCarrierBandwidthPartElement → Bool
  | a :: b :: rest =>
    decide (a.m_higherFrequency > b.m_lowerFrequency) || bwpAdjacentOverlap (b :: rest)
  | _ => false

/-- The fifth check of `CheckBwpsInCc` (mmwave-helper.cc:1432-1438): some pair
of BWPs adjacent in the id-sorted list has equal ids. -/
def bwpAdjacentDupId : List ComponentCarrierBandwidthPartElement → Bool
  | a :: b :: rest => (a.m_bwpId == b.m_bwpId) || bwpAdjacentDupId (b :: rest)
  | _ => false

/-- `ComponentCarrierBandwidthPartCreator::CheckBwpsInCc`
(mmwave-helper.cc:1391-1440; spec: ValidateBwpsInCarrier).  The carrier is
passed by reference and left with its BWP vector sorted by id; the updated
carrier is returned in the `ok` case.  The C++ stores the BWP count in a
`uint8_t` and drives the two pair loops with it; lists longer than 255 BWPs
cannot arise (`ComponentCarrierInfo::AddBwp`, mmwave-helper.cc:1206-1212,
aborts at four), so the count is embedded as the plain length and the pair
loops as structural scans of the sorted lists. -/
def CheckBwpsInCc (cc : ComponentCarrierInfo) :
    Except String ComponentCarrierInfo :=
  if cc.m_bwp.length > 4 ∨ cc.m_bwp.length < 1 then
    Except.error "The number of BWPs exceeds the maximum value (4)"
  else
    let sortedF := cc.m_bwp.insertionSort BwpFrequencyCompare
    match bwpLimitScan cc sortedF 0 false with
    | Except.error e => Except.error e
    | Except.ok (totalBandwidth, activeFound) =>
      if totalBandwidth > cc.m_bandwidth then
        Except.error "Aggregated BWP is larger than carrier bandwidth"
      else if activeFound = false then
        Except.error "The active BWP id was not found in the CC"
      else if bwpAdjacentOverlap sortedF then
        Except.error "BWPs shall not overlap"
      else
        let sortedId := sortedF.insertionSort BwpIdCompare
        if bwpAdjacentDupId sortedId then
          Except.error "Repeated BWP id"
        else
          Except.ok { cc with m_bwp := sortedId }

/-- The while loop of `ValidateOperationBand` (mmwave-helper.cc:1366-1378) on
the frequency-sorted carrier list: abort with "CCs overlap" at the first
adjacent pair with `cc[c+1].m_lowerFrequency - cc[c].m_higherFrequency < 0`,
and accumulate `NON_CONTIGUOUS` whenever that difference exceeds 1 Hz. -/
def ccOverlapContigScan (contiguous : ContiguousMode) :
    List ComponentCarrierInfo → Except String ContiguousMode
  | c0 :: c1 :: rest =>
    if c1.m_lowerFrequency - c0.m_higherFrequency < 0 then
      Except.error "CCs overlap"
    else
      ccOverlapContigScan
        (if c1.m_lowerFrequency - c0.m_higherFrequency > 1 then
          ContiguousMode.NON_CONTIGUOUS
        else contiguous)
        (c1 :: rest)
  | _ => Except.ok contiguous

/-- `CheckBwpsInCc` applied to every carrier in order
(`for (auto & cc : band.m_cc) CheckBwpsInCc (cc);`, mmwave-helper.cc:1384-1387),
aborting at the first failing carrier. -/
def ccListCheckBwps :
    List ComponentCarrierInfo → Except String (List ComponentCarrierInfo)
  | [] => Except.ok []
  | cc :: rest =>
    match CheckBwpsInCc cc with
    | Except.error e => Except.error e
    | Except.ok cc' =>
      match ccListCheckBwps rest with
      | Except.error e => Except.error e
      | Except.ok rest' => Except.ok (cc' :: rest')

/-- `ComponentCarrierBandwidthPartCreator::ValidateOperationBand`
(mmwave-helper.cc:1352-1388; spec: ValidateBand).  The band is passed by
reference; the returned band carries the mutations (carriers sorted by central
frequency, contiguity mode recomputed, each carrier updated by
`CheckBwpsInCc`). -/
def ValidateOperationBand (band : OperationBandInfo) :
    Except String OperationBandInfo :=
  if band.m_cc.isEmpty then
    Except.error "No CC information provided"
  else if band.m_numCarriers ≠ band.m_cc.length then
    Except.error "The declared number of intra-band CCs does not match the number of configured CCs"
  else
    let sorted := sortCcsByFreq band.m_cc
    match ccOverlapContigScan ContiguousMode.CONTIGUOUS sorted with
    | Except.error e => Except.error e
    | Except.ok contiguous =>
      match ccListCheckBwps sorted with
      | Except.error e => Except.error e
      | Except.ok ccs' =>
        Except.ok { band with m_cc := ccs', m_contiguousCc := contiguous }

/-- Number of `PRIMARY` carriers of one band
(the inner `for (const auto & cc : b.m_cc)` of mmwave-helper.cc:1466-1472). -/
def bandPrimaryCount (band : OperationBandInfo) : Nat :=
  band.m_cc.countP (fun cc => cc.m_primaryCc == CcState.PRIMARY)

/-- The inner `for (const auto & b : m_bands)` of `ValidateCaBwpConfiguration`
(mmwave-helper.cc:1459-1473) for a fixed outer band `a` (sitting at index `i`
of `bands`): for every band `b`, first abort if `&a != &b` (distinct index) and
`a.m_higherFrequency < b.m_lowerFrequency`, then add the number of `PRIMARY`
carriers of `b` — note that the count is inside this inner loop, so it runs
once per outer iteration. -/
def vcbInnerScan (a : OperationBandInfo) (i : Nat) :
    List OperationBandInfo → Nat → Nat → Except String Nat
  | [], _, prim => Except.ok prim
  | b :: rest, j, prim =>
    if i ≠ j ∧ a.m_higherFrequency < b.m_lowerFrequency then
      Except.error "Bands shall not overlap"
    else
      vcbInnerScan a i rest (j + 1) (prim + bandPrimaryCount b)

/-- The outer `for (auto & a : m_bands)` of `ValidateCaBwpConfiguration`
(mmwave-helper.cc:1454-1476): at index `i`, validate band `i` in place, run the
inner scan over the (partially updated) band list, and accumulate the carrier
count.  `fuel` is the number of outer iterations still to run; the loop is
entered with `i = 0` and `fuel = bands.length`, and `List.set` preserves the
length, so `fuel` counts exactly the elements from position `i` on. -/
def vcbOuterLoop :
    List OperationBandInfo → Nat → Nat → Nat → Nat →
    Except String (List OperationBandInfo × Nat × Nat)
  | bands, _, numAggrCcs, numPrimaryCcs, 0 =>
    Except.ok (bands, numAggrCcs, numPrimaryCcs)
  | bands, i, numAggrCcs, numPrimaryCcs, fuel + 1 =>
    match ValidateOperationBand (bands.getD i default) with
    | Except.error e => Except.error e
    | Except.ok band' =>
      let bands' := bands.set i band'
      match vcbInnerScan band' i bands' 0 numPrimaryCcs with
      | Except.error e => Except.error e
      | Except.ok prim =>
        vcbOuterLoop bands' (i + 1) (numAggrCcs + band'.m_numCarriers) prim fuel

/-- `ComponentCarrierBandwidthPartCreator::ValidateCaBwpConfiguration`
(mmwave-helper.cc:1443-1483; spec: ValidateTopology). -/
def ValidateCaBwpConfiguration (cr : ComponentCarrierBandwidthPartCreator) :
    Except String ComponentCarrierBandwidthPartCreator :=
  if cr.m_numBands ≠ cr.m_bands.length then
    Except.error "The number of bands does not match the number of bands created"
  else if cr.m_numBands > cr.m_maxBands then
    Except.error "The number of bands is larger than the maximum number"
  else
    match vcbOuterLoop cr.m_bands 0 0 0 cr.m_bands.length with
    | Except.error e => Except.error e
    | Except.ok (bands', numAggrCcs, numPrimaryCcs) =>
      if numAggrCcs > MAX_CC_INTER_BAND then
        Except.error "The number of allowed aggregated CCs was exceeded"
      else if numPrimaryCcs ≠ 1 then
        Except.error "There must be one primary CC"
      else
        Except.ok { cr with m_bands := bands' }

/-- `ComponentCarrierBandwidthPartCreator::GetActiveBwpInfo (bandIndex, ccIndex)`
(mmwave-helper.cc:1536-1563; spec: ResolveActiveBwp, indexed overload).
`ccIndex > band.m_numCarriers - 1` is C++ arithmetic after integer promotion
(both operands promote to `int`), hence the signed subtraction below;
`band.m_cc.size () - 1` is `size_t` arithmetic, exact here because the vector
was just checked non-empty. -/
def GetActiveBwpInfo (cr : ComponentCarrierBandwidthPartCreator)
    (bandIndex ccIndex : Nat) :
    Except String ComponentCarrierBandwidthPartElement :=
  if cr.m_bands.isEmpty then
    Except.error "No operation band information provided"
  else if bandIndex ≥ cr.m_maxBands ∨ bandIndex ≥ cr.m_bands.length then
    Except.error "Wrong operation band index"
  else
    let band := cr.m_bands.getD bandIndex default
    if band.m_cc.isEmpty then
      Except.error "No carrier band information provided"
    else if (ccIndex : Int) > (band.m_numCarriers : Int) - 1
        ∨ (ccIndex : Int) > (band.m_cc.length : Int) - 1 then
      Except.error "Wrong component carrier index"
    else
      let cc := band.m_cc.getD ccIndex default
      match cc.m_bwp.find? (fun b => b.m_bwpId == cc.m_activeBwp) with
      | some bwp => Except.ok bwp
      | none => Except.error "Active BWP id is not found in the current CC"

/-- The carrier loop of `ChangeActiveBwp` (mmwave-helper.cc:1611-1624): inside
a band whose id matched, find the first carrier with the requested id that
contains a BWP with the requested id and set its active-BWP field; carriers
whose id matches but which lack the BWP are skipped, exactly as in the C++
(where the inner loops simply fall through without returning). -/
def changeActiveBwpInCcs (ccId activeBwpId : Nat) :
    List ComponentCarrierInfo → Option (List ComponentCarrierInfo)
  | [] => none
  | cc :: rest =>
    if cc.m_ccId = ccId ∧ cc.m_bwp.any (fun b => b.m_bwpId == activeBwpId) then
      some ({ cc with m_activeBwp := activeBwpId } :: rest)
    else
      (changeActiveBwpInCcs ccId activeBwpId rest).map (cc :: ·)

/-- The band loop of `ChangeActiveBwp` (mmwave-helper.cc:1607-1627): scan the
bands; in each band whose id matches, try the carrier loop; on failure keep
scanning later bands. -/
def changeActiveBwpInBands (bandId ccId activeBwpId : Nat) :
    List OperationBandInfo → Option (List OperationBandInfo)
  | [] => none
  | band :: rest =>
    if band.m_bandId = bandId then
      match changeActiveBwpInCcs ccId activeBwpId band.m_cc with
      | some ccs => some ({ band with m_cc := ccs } :: rest)
      | none => (changeActiveBwpInBands bandId ccId activeBwpId rest).map (band :: ·)
    else
      (changeActiveBwpInBands bandId ccId activeBwpId rest).map (band :: ·)

/-- `ComponentCarrierBandwidthPartCreator::ChangeActiveBwp`
(mmwave-helper.cc:1604-1629). -/
def ChangeActiveBwp (cr : ComponentCarrierBandwidthPartCreator)
    (bandId ccId activeBwpId : Nat) :
    Except String ComponentCarrierBandwidthPartCreator :=
  match changeActiveBwpInBands bandId ccId activeBwpId cr.m_bands with
  | some bands => Except.ok { cr with m_bands := bands }
  | none => Except.error "Could not change the active BWP due to wrong request"

/-- `ComponentCarrierBandwidthPartCreator::GetAggregatedBandwidth`
(mmwave-helper.cc:1574-1592; spec: ComputeAggregatedBandwidth): triple loop
adding the bandwidth of every BWP whose id equals its carrier's active-BWP id
into a `uint32_t` accumulator. -/
def GetAggregatedBandwidth (cr : ComponentCarrierBandwidthPartCreator) : Nat :=
  cr.m_bands.foldl
    (fun acc band =>
      band.m_cc.foldl
        (fun acc cc =>
          cc.m_bwp.foldl
            (fun acc bwp =>
              if bwp.m_bwpId == cc.m_activeBwp then (acc + bwp.m_bandwidth) % U32
              else acc)
            acc)
        acc)
    0

/-- `MmWaveSpectrumPhy::ExpectedTb` (mmwave-spectrum-phy.h:183-209): the
transport-block metadata registered by `AddExpectedTb`. -/
structure ExpectedTb where
  m_ndi : Nat
  m_tbSize : Nat
  m_mcs : Nat
  m_rbBitmap : List Int
  m_harqProcessId : Nat
  m_rv : Nat
  m_isDownlink : Bool
  m_symStart : Nat
  m_numSym : Nat
deriving DecidableEq, Repr, Inhabited

/-- `MmWaveSpectrumPhy::TransportBlockInfo` (mmwave-spectrum-phy.h:211-224).
The SINR fields are C++ doubles used only as opaque data here, embedded as
`Int`-valued placeholders with the declared initial value `0`. -/
structure TransportBlockInfo where
  m_expected : ExpectedTb
  m_isCorrupted : Bool := false
  m_harqFeedbackSent : Bool := false
  m_sinrAvg : Int := 0
  m_sinrMin : Int := 0
deriving DecidableEq, Repr, Inhabited

/-- The `TransportBlockInfo (const ExpectedTb &)` constructor
(mmwave-spectrum-phy.h:213-214): all flags take their declared initializers,
in particular `m_harqFeedbackSent = false`. -/
def mkTransportBlockInfo (e : ExpectedTb) : TransportBlockInfo :=
  { m_expected := e }

/-- `MmWaveSpectrumPhy::AddExpectedTb` (declared at mmwave-spectrum-phy.h:174,
implementation not among the sources).  Modelled from the spec: registration
inserts a fresh `TransportBlockInfo` for the receiver identity into the
transport-block map, a second registration for the same key silently
overwriting the first ("if `AddExpectedTb` is called twice for the same
receiver+process before the first completes, the second registration silently
overwrites"). -/
def AddExpectedTb (m : List (Nat × TransportBlockInfo)) (rnti : Nat)
    (e : ExpectedTb) : List (Nat × TransportBlockInfo) :=
  (rnti, mkTransportBlockInfo e) :: m.filter (fun p => p.1 ≠ rnti)

/-- Modelled from the spec: the HARQ-feedback step that
`MmWaveSpectrumPhy::EndRxData` performs for one tracked transport block (the
implementation file of `MmWaveSpectrumPhy` is not among the sources; only the
header is).  Spec §4.2: "if HARQ is enabled and feedback has not yet been sent
for this transport block, synthesize DL/UL HARQ feedback and deliver it via
the registered callback exactly once per transport block instance; mark
feedback-sent."  Returns the updated record and the number of callback
deliveries performed (0 or 1). -/
def processEndOfReceptionHarq (harqEnabled : Bool) (tb : TransportBlockInfo) :
    TransportBlockInfo × Nat :=
  if harqEnabled ∧ tb.m_harqFeedbackSent = false then
    ({ tb with m_harqFeedbackSent := true }, 1)
  else
    (tb, 0)

/-- `DlHarqInfo`: the DL HARQ feedback message.  Its embedded identity fields
(declared outside the sources) are opaque to the routing code modelled here. -/
structure DlHarqInfo where
  m_harqProcessId : Nat
  m_cellId : Nat
deriving DecidableEq, Repr, Inhabited

/-- One entry of `MmWaveUeNetDevice::m_ccMap`: a `ComponentCarrierMmWaveUe`.
`m_dlEarfcn` is the value returned by `GetDlEarfcn ()`; `m_phy` is an opaque
identifier standing for the `Ptr<MmWaveUePhy>` returned by `GetPhy ()`;
`m_centerFrequency` is the centre frequency the carrier is configured at (via
its `MmWavePhyMacCommon`), carried only so that properties can talk about it —
the device code below never reads it. -/
structure ComponentCarrierMmWaveUe where
  m_dlEarfcn : Nat
  m_centerFrequency : Int
  m_phy : Nat
deriving DecidableEq, Repr, Inhabited

/-- `MmWaveUeNetDevice`, restricted to the state read by the two methods
modelled below.  `m_ccMap` is a `std::map<uint8_t, Ptr<ComponentCarrierMmWaveUe>>`,
embedded as an association list in ascending key order (the map's iteration
order).  `m_componentCarrierManager` models
`DynamicCast<BwpManagerUe> (m_componentCarrierManager)` together with the
manager's `RouteDlHarqFeedback` method (implemented outside the sources):
`none` is a device whose manager is absent or not a `BwpManagerUe`, and
`some route` is a registered BWP manager whose routing function is `route`. -/
structure MmWaveUeNetDevice where
  m_ccMap : List (Nat × ComponentCarrierMmWaveUe)
  m_componentCarrierManager : Option (DlHarqInfo → Nat)

/-- `MmWaveUeNetDevice::EnqueueDlHarqFeedback` (mmwave-ue-net-device.cc:124-133;
spec: HarqFeedbackRouter.RouteFeedback).  On success the result is the pair
(PHY of the selected carrier, forwarded feedback), standing for the single
call `m_ccMap.at (index)->GetPhy ()->EnqueueDlHarqFeedback (m)`.  A failed
`NS_ASSERT` and an out-of-range `.at` are both embedded as errors. -/
def EnqueueDlHarqFeedback (dev : MmWaveUeNetDevice) (m : DlHarqInfo) :
    Except String (Nat × DlHarqInfo) :=
  match dev.m_componentCarrierManager with
  | none => Except.error "NS_ASSERT failed: ccManager != nullptr"
  | some route =>
    let index := route m
    match dev.m_ccMap.lookup index with
    | some cc => Except.ok (cc.m_phy, m)
    | none => Except.error "std::out_of_range in m_ccMap.at (index)"

/-- `MmWaveUeNetDevice::GetPhyOnCenterFreq` (mmwave-ue-net-device.cc:198-212):
walk `m_ccMap` in key order and return the PHY of the first carrier whose
`GetDlEarfcn ()` is non-zero (this is the test literally written in the
source); if none, log and return `nullptr` (embedded as `none`). -/
def GetPhyOnCenterFreq (dev : MmWaveUeNetDevice) (centerFrequency : Int) :
    Option Nat :=
  match dev.m_ccMap.find? (fun p => p.2.m_dlEarfcn ≠ 0) with
  | some p => some p.2.m_phy
  | none => none

/-! ### Concrete configurations used to evaluate the code -/

/-- A bandwidth part spanning `[lo, hi]` with the given id and bandwidth. -/
def mkBwp (id : Nat) (lo hi : Int) (bw : Nat) :
    ComponentCarrierBandwidthPartElement :=
  { m_bwpId := id, m_numerology := 2, m_centralFrequency := (lo + hi) / 2,
    m_lowerFrequency := lo, m_higherFrequency := hi, m_bandwidth := bw }

/-- A component carrier spanning `[lo, hi]` with one BWP covering the whole
carrier, which is also the active BWP. -/
def mkCc1 (ccId : Nat) (prim : CcState) (lo hi : Int) (bw : Nat)
    (bwpId : Nat) : ComponentCarrierInfo :=
  { m_ccId := ccId, m_primaryCc := prim, m_centralFrequency := (lo + hi) / 2,
    m_lowerFrequency := lo, m_higherFrequency := hi, m_bandwidth := bw,
    m_activeBwp := bwpId, m_bwp := [mkBwp bwpId lo hi bw] }

/-- An operation band spanning `[lo, hi]` holding the given carriers. -/
def mkBand (bandId : Nat) (lo hi : Int) (cc : List ComponentCarrierInfo) :
    OperationBandInfo :=
  { m_bandId := bandId, m_centralFrequency := (lo + hi) / 2,
    m_lowerFrequency := lo, m_higherFrequency := hi,
    m_bandwidth := (hi - lo).toNat, m_numCarriers := cc.length,
    m_contiguousCc := ContiguousMode.CONTIGUOUS, m_cc := cc }

/-- C1 input: a band of two carriers `[0, 100e6]` and `[200e6, 300e6]`, sorted
by central frequency, with a 100 MHz gap between them. -/
def c1GapBand : OperationBandInfo :=
  mkBand 0 0 300000000
    [mkCc1 0 CcState.PRIMARY 0 100000000 100000000 0,
     mkCc1 1 CcState.SECONDARY 200000000 300000000 100000000 1]

/-- C1 input: a band of two carriers `[0, 100e6]` and `[50e6, 150e6]`, sorted
by central frequency, whose adjacent gap is negative (they overlap). -/
def c1OverlapBand : OperationBandInfo :=
  mkBand 1 0 150000000
    [mkCc1 0 CcState.PRIMARY 0 100000000 100000000 0,
     mkCc1 1 CcState.SECONDARY 50000000 150000000 100000000 1]

/-- C2 input: two individually valid, frequency-overlapping operation bands
(both spanning `[0, 300e6]`) with exactly one `PRIMARY` carrier overall. -/
def c2cr : ComponentCarrierBandwidthPartCreator :=
  { m_maxBands := 2,
    m_bands :=
      [mkBand 0 0 300000000 [mkCc1 0 CcState.PRIMARY 0 100000000 100000000 0],
       mkBand 1 0 300000000 [mkCc1 1 CcState.SECONDARY 150000000 250000000 100000000 1]],
    m_numBands := 2, m_numCcs := 2, m_numBwps := 2 }

/-- C3 input: two individually valid operation bands that are disjoint in
frequency (band 0 spans `[0, 100e6]`, band 1 spans `[200e6, 300e6]`), with
exactly one `PRIMARY` carrier overall. -/
def c3DisjointCr : ComponentCarrierBandwidthPartCreator :=
  { m_maxBands := 2,
    m_bands :=
      [mkBand 0 0 100000000 [mkCc1 0 CcState.PRIMARY 0 100000000 100000000 0],
       mkBand 1 200000000 300000000 [mkCc1 1 CcState.SECONDARY 200000000 300000000 100000000 1]],
    m_numBands := 2, m_numCcs := 2, m_numBwps := 2 }

/-- C3 input: two individually valid operation bands that overlap in
frequency (both spanning `[0, 300e6]`), with two `PRIMARY` carriers. -/
def c3OverlapCr : ComponentCarrierBandwidthPartCreator :=
  { m_maxBands := 2,
    m_bands :=
      [mkBand 0 0 300000000 [mkCc1 0 CcState.PRIMARY 0 100000000 100000000 0],
       mkBand 1 0 300000000 [mkCc1 1 CcState.PRIMARY 150000000 250000000 100000000 1]],
    m_numBands := 2, m_numCcs := 2, m_numBwps := 2 }

/-- C10 input: a UE device with two component carriers, both with a non-zero
DL EARFCN: carrier key 0 at centre frequency 28 GHz with PHY `100`, carrier
key 1 at centre frequency 28.3 GHz with PHY `101`. -/
def c10dev : MmWaveUeNetDevice :=
  { m_ccMap :=
      [(0, { m_dlEarfcn := 1, m_centerFrequency := 28000000000, m_phy := 100 }),
       (1, { m_dlEarfcn := 2, m_centerFrequency := 28300000000, m_phy := 101 })],
    m_componentCarrierManager := none }

/-! ### Claim theorems -/

/-- C1: the claim states that, on a band sorted by ascending central
frequency, `GetCcContiguousnessState` returns `NON_CONTIGUOUS` iff some
adjacent gap `lower (i+1) - higher (i)` exceeds the threshold, fails with an
overlap error iff some adjacent gap is negative, and returns `CONTIGUOUS`
otherwise.  The code refutes this: it subtracts in the wrong order
(`lower (i) - higher (i+1)`, mmwave-helper.cc:1497) and contains no overlap
abort at all, so a band with a 100 MHz gap and threshold 1 Hz yields
`CONTIGUOUS` (the claim requires `NON_CONTIGUOUS`), and a band with
overlapping carriers yields `CONTIGUOUS` as well (the claim requires an
overlap failure). -/
theorem C1_getCcContiguousnessState_counterexample :
    GetCcContiguousnessState c1GapBand 1
      = Except.ok ContiguousMode.CONTIGUOUS
    ∧ ((c1GapBand.m_cc.getD 1 default).m_lowerFrequency
        - (c1GapBand.m_cc.getD 0 default).m_higherFrequency > 1)
    ∧ GetCcContiguousnessState c1OverlapBand 1
      = Except.ok ContiguousMode.CONTIGUOUS
    ∧ ((c1OverlapBand.m_cc.getD 1 default).m_lowerFrequency
        - (c1OverlapBand.m_cc.getD 0 default).m_higherFrequency < 0) := by
  refine ⟨rfl, by decide, rfl, by decide⟩

/-- C2: the claim states that `ValidateCaBwpConfiguration` succeeds on every
otherwise-valid topology with exactly one `PRIMARY` carrier, regardless of the
number of bands.  The code refutes this: the primary-counting loop
(mmwave-helper.cc:1466-1472) sits inside the all-bands inner loop, so every
primary carrier is counted once per band; with two bands and one primary the
count is 2 and the function aborts with the primary-count error. -/
theorem C2_validateCaBwpConfiguration_counterexample :
    ValidateCaBwpConfiguration c2cr
      = Except.error "There must be one primary CC"
    ∧ (c2cr.m_bands.map bandPrimaryCount).sum = 1 := by
  refine ⟨rfl, by decide⟩

/-- C3: the claim states that `ValidateCaBwpConfiguration` aborts with the
band-overlap error whenever two distinct bands overlap in frequency, and that
this check never fires on pairwise-disjoint bands.  The code refutes both
directions: the test `a.m_higherFrequency < b.m_lowerFrequency`
(mmwave-helper.cc:1462) is true exactly when band `a` lies strictly below band
`b`, so two disjoint bands trigger the "Bands shall not overlap" abort, while
two overlapping bands pass it (here reaching the later primary-count abort
instead). -/
theorem C3_bandOverlapCheck_counterexample :
    ValidateCaBwpConfiguration c3DisjointCr
      = Except.error "Bands shall not overlap"
    ∧ ((c3DisjointCr.m_bands.getD 0 default).m_higherFrequency
        < (c3DisjointCr.m_bands.getD 1 default).m_lowerFrequency)
    ∧ ValidateCaBwpConfiguration c3OverlapCr
      = Except.error "There must be one primary CC" := by
  refine ⟨rfl, by decide, rfl⟩

/-- C8: every transport block entered through `AddExpectedTb` starts with
`m_harqFeedbackSent = false`, and the end-of-reception HARQ step delivers the
feedback callback exactly once for that instance even when it is run twice on
the same block: the first run delivers and sets the flag, the second run is
suppressed by the flag.  (The end-of-reception step is modelled from the spec;
see `processEndOfReceptionHarq`.) -/
theorem C8_harqFeedbackDeliveredOnce (m : List (Nat × TransportBlockInfo))
    (rnti : Nat) (e : ExpectedTb) :
    (AddExpectedTb m rnti e).lookup rnti = some (mkTransportBlockInfo e)
    ∧ (mkTransportBlockInfo e).m_harqFeedbackSent = false
    ∧ (processEndOfReceptionHarq true (mkTransportBlockInfo e)).2 = 1
    ∧ (processEndOfReceptionHarq true
        (processEndOfReceptionHarq true (mkTransportBlockInfo e)).1).2 = 0
    ∧ (processEndOfReceptionHarq true (mkTransportBlockInfo e)).2
        + (processEndOfReceptionHarq true
            (processEndOfReceptionHarq true (mkTransportBlockInfo e)).1).2 = 1
    ∧ (processEndOfReceptionHarq true
        (mkTransportBlockInfo e)).1.m_harqFeedbackSent = true := by
  refine ⟨?_, rfl, rfl, rfl, rfl, rfl⟩
  simp [AddExpectedTb, List.lookup]

/-- C8 witness: the feedback-once property at a concrete registration. -/
theorem C8_harqFeedbackDeliveredOnce_witness :
    (AddExpectedTb [] 7 default).lookup 7 = some (mkTransportBlockInfo default)
    ∧ (mkTransportBlockInfo default).m_harqFeedbackSent = false
    ∧ (processEndOfReceptionHarq true (mkTransportBlockInfo default)).2 = 1
    ∧ (processEndOfReceptionHarq true
        (processEndOfReceptionHarq true (mkTransportBlockInfo default)).1).2 = 0
    ∧ (processEndOfReceptionHarq true (mkTransportBlockInfo default)).2
        + (processEndOfReceptionHarq true
            (processEndOfReceptionHarq true (mkTransportBlockInfo default)).1).2
          = 1
    ∧ (processEndOfReceptionHarq true
        (mkTransportBlockInfo default)).1.m_harqFeedbackSent = true :=
  C8_harqFeedbackDeliveredOnce [] 7 default

/-- C9: `EnqueueDlHarqFeedback` fails with the assertion error when the device
has no registered BWP manager, and otherwise forwards the feedback to exactly
the carrier whose key is the index returned by the manager's routing function
for that feedback, delivering it to that carrier's PHY. -/
theorem C9_enqueueDlHarqFeedback_routing :
    (∀ (dev : MmWaveUeNetDevice) (m : DlHarqInfo),
      dev.m_componentCarrierManager = none →
      EnqueueDlHarqFeedback dev m
        = Except.error "NS_ASSERT failed: ccManager != nullptr")
    ∧ (∀ (dev : MmWaveUeNetDevice) (m : DlHarqInfo)
        (route : DlHarqInfo → Nat) (cc : ComponentCarrierMmWaveUe),
      dev.m_componentCarrierManager = some route →
      dev.m_ccMap.lookup (route m) = some cc →
      EnqueueDlHarqFeedback dev m = Except.ok (cc.m_phy, m)) := by
  constructor
  · intro dev m h
    simp [EnqueueDlHarqFeedback, h]
  · intro dev m route cc hr hl
    simp [EnqueueDlHarqFeedback, hr, hl]

/-- C9 witness: the routing theorem applied to two concrete devices — one
without a manager, one whose manager routes every feedback to carrier 1. -/
theorem C9_enqueueDlHarqFeedback_routing_witness :
    EnqueueDlHarqFeedback
        { m_ccMap := [(0, { m_dlEarfcn := 1, m_centerFrequency := 1, m_phy := 7 })],
          m_componentCarrierManager := none }
        { m_harqProcessId := 0, m_cellId := 5 }
      = Except.error "NS_ASSERT failed: ccManager != nullptr"
    ∧ EnqueueDlHarqFeedback
        { m_ccMap :=
            [(0, { m_dlEarfcn := 1, m_centerFrequency := 1, m_phy := 7 }),
             (1, { m_dlEarfcn := 2, m_centerFrequency := 2, m_phy := 8 })],
          m_componentCarrierManager := some (fun _ => 1) }
        { m_harqProcessId := 0, m_cellId := 5 }
      = Except.ok (8, { m_harqProcessId := 0, m_cellId := 5 }) := by
  exact ⟨C9_enqueueDlHarqFeedback_routing.1 _ _ rfl,
    C9_enqueueDlHarqFeedback_routing.2 _ _ (fun _ => 1)
      { m_dlEarfcn := 2, m_centerFrequency := 2, m_phy := 8 } rfl rfl⟩

/-- C10: the claim states that `GetPhyOnCenterFreq` returns the PHY of the
carrier configured at the requested centre frequency, and `none` when no
carrier is configured there.  The code refutes this: the loop tests
`GetDlEarfcn ()` for being non-zero (mmwave-ue-net-device.cc:205) and never
consults the requested frequency, so on a device whose first carrier (PHY
`100`) sits at 28 GHz, requesting 28.3 GHz returns the 28 GHz carrier's PHY
`100` instead of PHY `101` of the carrier configured at 28.3 GHz, and
requesting a frequency at which no carrier is configured also returns PHY
`100` instead of `none`. -/
theorem C10_getPhyOnCenterFreq_counterexample :
    GetPhyOnCenterFreq c10dev 28300000000 = some 100
    ∧ ((c10dev.m_ccMap.getD 1 default).2.m_centerFrequency = 28300000000
        ∧ (c10dev.m_ccMap.getD 1 default).2.m_phy = 101)
    ∧ GetPhyOnCenterFreq c10dev 12345 = some 100
    ∧ (∀ p ∈ c10dev.m_ccMap, p.2.m_centerFrequency ≠ 12345) := by
  refine ⟨rfl, ⟨by decide, by decide⟩, rfl, by decide⟩

/-! ### C5: an overlapping adjacent carrier pair makes `ValidateOperationBand` abort -/

/-- If some adjacent pair of the carrier list violates
`first.m_higherFrequency ≤ second.m_lowerFrequency`, the overlap/contiguity
scan aborts with the "CCs overlap" error, whatever contiguity mode has been
accumulated so far. -/
theorem ccOverlapContigScan_error_of_overlap :
    ∀ (l : List ComponentCarrierInfo) (m : ContiguousMode),
      ¬ List.Chain' (fun a b => a.m_higherFrequency ≤ b.m_lowerFrequency) l →
      ccOverlapContigScan m l = Except.error "CCs overlap" := by
  intro l
  induction l with
  | nil => intro m h; exact absurd List.chain'_nil h
  | cons c0 tail ih =>
    intro m h
    cases tail with
    | nil => exact absurd (List.chain'_singleton c0) h
    | cons c1 rest =>
      by_cases hlt : c1.m_lowerFrequency - c0.m_higherFrequency < 0
      · simp only [ccOverlapContigScan, if_pos hlt]
      · have hle : c0.m_higherFrequency ≤ c1.m_lowerFrequency := by omega
        simp only [ccOverlapContigScan, if_neg hlt]
        exact ih _ (fun hch => h (List.chain'_cons.mpr ⟨hle, hch⟩))

/-- C5: on any operation band whose declared carrier count matches its carrier
list and in which, after sorting by ascending central frequency, some adjacent
pair of carriers has a negative gap (the next lower bound is below the
previous higher bound), `ValidateOperationBand` aborts with the "CCs overlap"
configuration error rather than returning a coerced band. -/
theorem C5_validateOperationBand_overlap_aborts
    (band : OperationBandInfo)
    (hn : band.m_numCarriers = band.m_cc.length)
    (hov : ¬ List.Chain' (fun a b => a.m_higherFrequency ≤ b.m_lowerFrequency)
        (sortCcsByFreq band.m_cc)) :
    ValidateOperationBand band = Except.error "CCs overlap" := by
  have hne : band.m_cc.isEmpty = false := by
    cases h : band.m_cc with
    | nil =>
      exfalso
      apply hov
      have : sortCcsByFreq band.m_cc = [] := by rw [h]; rfl
      rw [this]
      exact List.chain'_nil
    | cons a l => rfl
  unfold ValidateOperationBand
  rw [if_neg (by simp [hne]), if_neg (by simp [hn])]
  simp only [ccOverlapContigScan_error_of_overlap _ _ hov]

/-- C5 input: the scenario from the claim — a band of two carriers with
lower/higher bounds `[0, 100e6]` and `[50e6, 150e6]`. -/
def c5Band : OperationBandInfo :=
  mkBand 5 0 150000000
    [mkCc1 0 CcState.PRIMARY 0 100000000 100000000 0,
     mkCc1 1 CcState.SECONDARY 50000000 150000000 100000000 1]

/-- C5 witness: the theorem applied to the claim's own scenario. -/
theorem C5_validateOperationBand_overlap_aborts_witness :
    ValidateOperationBand c5Band = Except.error "CCs overlap" :=
  C5_validateOperationBand_overlap_aborts c5Band (by decide)
    (fun hch => absurd (List.chain'_cons.mp hch).1 (by decide))

/-! ### C7: aggregated bandwidth sums exactly the active BWPs -/

/-- The active BWP of a carrier: the first BWP whose id equals the carrier's
active-BWP id. -/
def activeBwpOf (cc : ComponentCarrierInfo) :
    Option ComponentCarrierBandwidthPartElement :=
  cc.m_bwp.find? (fun b => b.m_bwpId == cc.m_activeBwp)

/-- The bandwidth of a carrier's active BWP (0 if the carrier has none). -/
def ccActiveBandwidth (cc : ComponentCarrierInfo) : Nat :=
  ((activeBwpOf cc).map (fun b => b.m_bandwidth)).getD 0

/-- A `uint32_t` accumulation of `f x` over the elements satisfying `p` equals
the filtered sum, reduced modulo `2^32`. -/
theorem foldl_mod_filter {α : Type} (p : α → Bool) (f : α → Nat) :
    ∀ (l : List α) (acc : Nat), acc < U32 →
      l.foldl (fun a x => if p x then (a + f x) % U32 else a) acc
        = (acc + ((l.filter p).map f).sum) % U32 := by
  intro l
  induction l with
  | nil =>
    intro acc hacc
    simp [Nat.mod_eq_of_lt hacc]
  | cons x xs ih =>
    intro acc hacc
    by_cases hp : p x
    · have hlt : (acc + f x) % U32 < U32 :=
        Nat.mod_lt _ (by unfold U32; omega)
      simp only [List.foldl_cons, List.filter_cons, hp, if_pos, List.map_cons,
        List.sum_cons, ih _ hlt, Nat.mod_add_mod]
      rw [Nat.add_assoc]
    · have hpf : p x = false := by simpa using hp
      simp only [List.foldl_cons, List.filter_cons, hpf]
      simp only [Bool.false_eq_true, if_false]
      exact ih acc hacc

/-- Per-carrier filtered bandwidth total: what one iteration of the carrier
loop of `GetAggregatedBandwidth` adds (before the modulus). -/
def ccActiveFilterSum (cc : ComponentCarrierInfo) : Nat :=
  ((cc.m_bwp.filter (fun b => b.m_bwpId == cc.m_activeBwp)).map
    (fun b => b.m_bandwidth)).sum

/-- The carrier-level fold of `GetAggregatedBandwidth`. -/
theorem foldl_cc_mod :
    ∀ (l : List ComponentCarrierInfo) (acc : Nat), acc < U32 →
      l.foldl
        (fun acc cc =>
          cc.m_bwp.foldl
            (fun acc bwp =>
              if bwp.m_bwpId == cc.m_activeBwp then (acc + bwp.m_bandwidth) % U32
              else acc)
            acc)
        acc
        = (acc + (l.map ccActiveFilterSum).sum) % U32 := by
  intro l
  induction l with
  | nil =>
    intro acc hacc
    simp [Nat.mod_eq_of_lt hacc]
  | cons cc ccs ih =>
    intro acc hacc
    have hcc := foldl_mod_filter (fun b => b.m_bwpId == cc.m_activeBwp)
      (fun b => b.m_bandwidth) cc.m_bwp acc hacc
    have hlt : (acc + ccActiveFilterSum cc) % U32 < U32 :=
      Nat.mod_lt _ (by unfold U32; omega)
    simp only [List.foldl_cons, List.map_cons, List.sum_cons]
    rw [hcc, show ((cc.m_bwp.filter (fun b => b.m_bwpId == cc.m_activeBwp)).map
        (fun b => b.m_bandwidth)).sum = ccActiveFilterSum cc from rfl,
      ih _ hlt, Nat.mod_add_mod, Nat.add_assoc]

/-- `GetAggregatedBandwidth` is the filtered double sum modulo `2^32`. -/
theorem getAggregatedBandwidth_eq_mod
    (cr : ComponentCarrierBandwidthPartCreator) :
    GetAggregatedBandwidth cr
      = ((cr.m_bands.map (fun band => (band.m_cc.map ccActiveFilterSum).sum)).sum)
          % U32 := by
  unfold GetAggregatedBandwidth
  have main :
      ∀ (l : List OperationBandInfo) (acc : Nat), acc < U32 →
        l.foldl
          (fun acc band =>
            band.m_cc.foldl
              (fun acc cc =>
                cc.m_bwp.foldl
                  (fun acc bwp =>
                    if bwp.m_bwpId == cc.m_activeBwp then
                      (acc + bwp.m_bandwidth) % U32
                    else acc)
                  acc)
              acc)
          acc
          = (acc + (l.map (fun band => (band.m_cc.map ccActiveFilterSum).sum)).sum)
              % U32 := by
    intro l
    induction l with
    | nil =>
      intro acc hacc
      simp [Nat.mod_eq_of_lt hacc]
    | cons band bands ih =>
      intro acc hacc
      have hband := foldl_cc_mod band.m_cc acc hacc
      have hlt : (acc + (band.m_cc.map ccActiveFilterSum).sum) % U32 < U32 :=
        Nat.mod_lt _ (by unfold U32; omega)
      simp only [List.foldl_cons, List.map_cons, List.sum_cons]
      rw [hband, ih _ hlt, Nat.mod_add_mod, Nat.add_assoc]
  rw [main cr.m_bands 0 (by unfold U32; omega)]
  simp

/-- A filtered-and-mapped sum over a list in which at most one element
satisfies the predicate equals the image of the first (hence only) element
found. -/
theorem filter_map_sum_eq_find {α : Type} (p : α → Bool) (f : α → Nat) :
    ∀ l : List α, l.countP p ≤ 1 →
      ((l.filter p).map f).sum = ((l.find? p).map f).getD 0 := by
  intro l
  induction l with
  | nil => intro h; simp
  | cons b bs ih =>
    intro h
    by_cases hp : p b = true
    · rw [List.countP_cons, if_pos hp] at h
      have hz : bs.countP p = 0 := by omega
      have hnil : bs.filter p = [] := by
        rw [List.filter_eq_nil_iff]
        exact List.countP_eq_zero.mp hz
      simp [List.filter_cons, hp, hnil, List.find?_cons_of_pos _ hp]
    · rw [List.countP_cons, if_neg hp] at h
      have hpf : p b = false := by simpa using hp
      simp only [List.filter_cons, hpf]
      simp only [Bool.false_eq_true, if_false]
      rw [List.find?_cons_of_neg _ hp]
      exact ih (by omega)

/-- If at most one BWP of the carrier carries the active id, the filtered
bandwidth total is exactly the active BWP's bandwidth. -/
theorem ccActiveFilterSum_eq_ccActiveBandwidth (cc : ComponentCarrierInfo)
    (h : cc.m_bwp.countP (fun b => b.m_bwpId == cc.m_activeBwp) ≤ 1) :
    ccActiveFilterSum cc = ccActiveBandwidth cc := by
  unfold ccActiveFilterSum ccActiveBandwidth activeBwpOf
  exact filter_map_sum_eq_find (fun b => b.m_bwpId == cc.m_activeBwp)
    (fun b => b.m_bandwidth) cc.m_bwp h

/-- C7: `GetAggregatedBandwidth` returns exactly the sum, over all carriers of
all bands, of the active BWP's bandwidth (the BWP whose id equals the
carrier's active-BWP id) — inactive BWPs are never counted — provided each
carrier has at most one BWP with the active id and the total fits a
`uint32_t`; and `ChangeActiveBwp` never alters any stored BWP element (in
particular no stored bandwidth), so changing the active BWP only re-selects
which stored bandwidth the aggregate counts. -/
theorem C7_aggregatedBandwidth_spec :
    (∀ cr : ComponentCarrierBandwidthPartCreator,
      (∀ band ∈ cr.m_bands, ∀ cc ∈ band.m_cc,
        cc.m_bwp.countP (fun b => b.m_bwpId == cc.m_activeBwp) ≤ 1) →
      (cr.m_bands.map (fun band => (band.m_cc.map ccActiveBandwidth).sum)).sum
          < U32 →
      GetAggregatedBandwidth cr
        = (cr.m_bands.map (fun band => (band.m_cc.map ccActiveBandwidth).sum)).sum)
    ∧ (∀ (cr : ComponentCarrierBandwidthPartCreator)
        (bandId ccId newId : Nat) cr',
      ChangeActiveBwp cr bandId ccId newId = Except.ok cr' →
      cr'.m_bands.map (fun band => band.m_cc.map (fun cc => cc.m_bwp))
        = cr.m_bands.map (fun band => band.m_cc.map (fun cc => cc.m_bwp))) := by
  constructor
  · intro cr hu hs
    have hmap :
        cr.m_bands.map (fun band => (band.m_cc.map ccActiveFilterSum).sum)
          = cr.m_bands.map (fun band => (band.m_cc.map ccActiveBandwidth).sum) := by
      apply List.map_congr_left
      intro band hband
      congr 1
      apply List.map_congr_left
      intro cc hcc
      exact ccActiveFilterSum_eq_ccActiveBandwidth cc (hu band hband cc hcc)
    rw [getAggregatedBandwidth_eq_mod, hmap, Nat.mod_eq_of_lt hs]
  · intro cr bandId ccId newId cr' h
    unfold ChangeActiveBwp at h
    cases hb : changeActiveBwpInBands bandId ccId newId cr.m_bands with
    | none => rw [hb] at h; exact absurd h (by simp)
    | some bands =>
      rw [hb] at h
      have hcr' : cr' = { cr with m_bands := bands } := by
        cases h; rfl
      subst hcr'
      have hccs :
          ∀ (cId bId : Nat) (l l' : List ComponentCarrierInfo),
            changeActiveBwpInCcs cId bId l = some l' →
            l'.map (fun cc => cc.m_bwp) = l.map (fun cc => cc.m_bwp) := by
        intro cId bId l
        induction l with
        | nil => intro l' h'; exact absurd h' (by simp [changeActiveBwpInCcs])
        | cons cc rest ih =>
          intro l' h'
          unfold changeActiveBwpInCcs at h'
          by_cases hcond : cc.m_ccId = cId ∧
              cc.m_bwp.any (fun b => b.m_bwpId == bId) = true
          · rw [if_pos hcond] at h'
            cases h'
            rfl
          · rw [if_neg hcond] at h'
            cases hrest : changeActiveBwpInCcs cId bId rest with
            | none => rw [hrest] at h'; exact absurd h' (by simp)
            | some rest' =>
              rw [hrest] at h'
              cases h'
              simp only [List.map_cons]
              rw [ih rest' hrest]
      have hbands :
          ∀ (l l' : List OperationBandInfo),
            changeActiveBwpInBands bandId ccId newId l = some l' →
            l'.map (fun band => band.m_cc.map (fun cc => cc.m_bwp))
              = l.map (fun band => band.m_cc.map (fun cc => cc.m_bwp)) := by
        intro l
        induction l with
        | nil => intro l' h'; exact absurd h' (by simp [changeActiveBwpInBands])
        | cons band rest ih =>
          intro l' h'
          unfold changeActiveBwpInBands at h'
          by_cases hid : band.m_bandId = bandId
          · rw [if_pos hid] at h'
            cases hcc : changeActiveBwpInCcs ccId newId band.m_cc with
            | some ccs =>
              rw [hcc] at h'
              cases h'
              simp only [List.map_cons]
              rw [hccs _ _ _ _ hcc]
            | none =>
              rw [hcc] at h'
              cases hrest : changeActiveBwpInBands bandId ccId newId rest with
              | none => rw [hrest] at h'; exact absurd h' (by simp)
              | some rest' =>
                rw [hrest] at h'
                cases h'
                simp only [List.map_cons]
                rw [ih rest' hrest]
          · rw [if_neg hid] at h'
            cases hrest : changeActiveBwpInBands bandId ccId newId rest with
            | none => rw [hrest] at h'; exact absurd h' (by simp)
            | some rest' =>
              rw [hrest] at h'
              cases h'
              simp only [List.map_cons]
              rw [ih rest' hrest]
      exact hbands cr.m_bands bands hb

/-- C7 input: one band, one carrier with two BWPs — the active BWP (id 0,
100 MHz) and an inactive alternative (id 1, 50 MHz). -/
def c7cr : ComponentCarrierBandwidthPartCreator :=
  { m_maxBands := 1,
    m_bands :=
      [mkBand 0 0 300000000
        [{ m_ccId := 0, m_primaryCc := CcState.PRIMARY,
           m_centralFrequency := 150000000, m_lowerFrequency := 0,
           m_higherFrequency := 300000000, m_bandwidth := 300000000,
           m_activeBwp := 0,
           m_bwp := [mkBwp 0 0 100000000 100000000,
                     mkBwp 1 150000000 200000000 50000000] }]],
    m_numBands := 1, m_numCcs := 1, m_numBwps := 2 }

/-- C7 witness: the aggregate of `c7cr` counts only the active 100 MHz BWP,
not the inactive 50 MHz one. -/
theorem C7_aggregatedBandwidth_spec_witness :
    GetAggregatedBandwidth c7cr
      = (c7cr.m_bands.map (fun band => (band.m_cc.map ccActiveBandwidth).sum)).sum
    ∧ GetAggregatedBandwidth c7cr = 100000000 :=
  ⟨C7_aggregatedBandwidth_spec.1 c7cr (by decide) (by decide), rfl⟩

/-! ### C6: active-BWP resolution and `ChangeActiveBwp` -/

/-- Every band list is at most as long as `m_maxBands`, and every band's
declared carrier count matches its carrier list — the state any topology
accepted by the validators is in. -/
def creatorWellFormed (cr : ComponentCarrierBandwidthPartCreator) : Prop :=
  cr.m_bands.length ≤ cr.m_maxBands
  ∧ ∀ band ∈ cr.m_bands, band.m_numCarriers = band.m_cc.length

instance (cr : ComponentCarrierBandwidthPartCreator) :
    Decidable (creatorWellFormed cr) :=
  inferInstanceAs (Decidable (_ ∧ _))

/-- Success characterization of the carrier loop of `ChangeActiveBwp`: the
first carrier with the requested id that contains the requested BWP gets its
active-BWP field set; everything else is untouched. -/
theorem changeActiveBwpInCcs_some (ccId newId : Nat) :
    ∀ (l l' : List ComponentCarrierInfo),
      changeActiveBwpInCcs ccId newId l = some l' →
      ∃ ci, ci < l.length
        ∧ (l.getD ci default).m_ccId = ccId
        ∧ (l.getD ci default).m_bwp.any (fun b => b.m_bwpId == newId) = true
        ∧ l' = l.set ci { l.getD ci default with m_activeBwp := newId } := by
  intro l
  induction l with
  | nil => intro l' h; exact absurd h (by simp [changeActiveBwpInCcs])
  | cons cc rest ih =>
    intro l' h
    unfold changeActiveBwpInCcs at h
    by_cases hcond : cc.m_ccId = ccId
        ∧ cc.m_bwp.any (fun b => b.m_bwpId == newId) = true
    · rw [if_pos hcond] at h
      cases h
      exact ⟨0, by simp, hcond.1, hcond.2, rfl⟩
    · rw [if_neg hcond] at h
      cases hrest : changeActiveBwpInCcs ccId newId rest with
      | none => rw [hrest] at h; exact absurd h (by simp)
      | some rest' =>
        rw [hrest] at h
        cases h
        obtain ⟨ci, hlen, hid, hany, hset⟩ := ih rest' hrest
        exact ⟨ci + 1, by simpa using hlen, by simpa using hid,
          by simpa using hany, by simp [hset]⟩

/-- Success characterization of the band loop of `ChangeActiveBwp`: some band
with the requested id has its carrier list rewritten by the carrier loop, and
the other bands are untouched. -/
theorem changeActiveBwpInBands_some (bandId ccId newId : Nat) :
    ∀ (l l' : List OperationBandInfo),
      changeActiveBwpInBands bandId ccId newId l = some l' →
      ∃ bi ccs', bi < l.length
        ∧ (l.getD bi default).m_bandId = bandId
        ∧ changeActiveBwpInCcs ccId newId (l.getD bi default).m_cc = some ccs'
        ∧ l' = l.set bi { l.getD bi default with m_cc := ccs' } := by
  intro l
  induction l with
  | nil => intro l' h; exact absurd h (by simp [changeActiveBwpInBands])
  | cons band rest ih =>
    intro l' h
    unfold changeActiveBwpInBands at h
    by_cases hid : band.m_bandId = bandId
    · rw [if_pos hid] at h
      cases hcc : changeActiveBwpInCcs ccId newId band.m_cc with
      | some ccs =>
        rw [hcc] at h
        cases h
        exact ⟨0, ccs, by simp, hid, hcc, rfl⟩
      | none =>
        rw [hcc] at h
        cases hrest : changeActiveBwpInBands bandId ccId newId rest with
        | none => rw [hrest] at h; exact absurd h (by simp)
        | some rest' =>
          rw [hrest] at h
          cases h
          obtain ⟨bi, ccs', hlen, hbid, hccs, hset⟩ := ih rest' hrest
          exact ⟨bi + 1, ccs', by simpa using hlen, by simpa using hbid,
            by simpa using hccs, by simp [hset]⟩
    · rw [if_neg hid] at h
      cases hrest : changeActiveBwpInBands bandId ccId newId rest with
      | none => rw [hrest] at h; exact absurd h (by simp)
      | some rest' =>
        rw [hrest] at h
        cases h
        obtain ⟨bi, ccs', hlen, hbid, hccs, hset⟩ := ih rest' hrest
        exact ⟨bi + 1, ccs', by simpa using hlen, by simpa using hbid,
          by simpa using hccs, by simp [hset]⟩

/-- Evaluation of `GetActiveBwpInfo` on in-range indices whose carrier
resolves its active BWP. -/
theorem getActiveBwpInfo_ok_of (cr : ComponentCarrierBandwidthPartCreator)
    (bi ci : Nat) (bwp : ComponentCarrierBandwidthPartElement)
    (h1 : bi < cr.m_bands.length) (h2 : bi < cr.m_maxBands)
    (h3 : ci < (cr.m_bands.getD bi default).m_cc.length)
    (h4 : ci < (cr.m_bands.getD bi default).m_numCarriers)
    (h5 : ((cr.m_bands.getD bi default).m_cc.getD ci default).m_bwp.find?
        (fun b => b.m_bwpId
          == ((cr.m_bands.getD bi default).m_cc.getD ci default).m_activeBwp)
        = some bwp) :
    GetActiveBwpInfo cr bi ci = Except.ok bwp := by
  have hne1 : cr.m_bands.isEmpty = false := by
    rw [List.isEmpty_eq_false]
    intro hnil
    rw [hnil] at h1
    simp at h1
  have hne2 : (cr.m_bands.getD bi default).m_cc.isEmpty = false := by
    rw [List.isEmpty_eq_false]
    intro hnil
    rw [hnil] at h3
    simp at h3
  have hne1' : ¬(cr.m_bands.isEmpty = true) := by rw [hne1]; simp
  have hne2' : ¬((cr.m_bands.getD bi default).m_cc.isEmpty = true) := by
    rw [hne2]; simp
  simp only [GetActiveBwpInfo]
  rw [if_neg hne1',
    if_neg (by omega : ¬(bi ≥ cr.m_maxBands ∨ bi ≥ cr.m_bands.length)),
    if_neg hne2',
    if_neg (by omega :
      ¬((ci : Int) > ((cr.m_bands.getD bi default).m_numCarriers : Int) - 1
        ∨ (ci : Int) > ((cr.m_bands.getD bi default).m_cc.length : Int) - 1))]
  rw [h5]

/-- C6: (a) whenever the indexed `GetActiveBwpInfo` returns a BWP, that BWP
belongs to the addressed carrier and its id is exactly the carrier's
active-BWP id; (b) if no BWP of the addressed carrier carries the active id,
`GetActiveBwpInfo` aborts (it never returns a BWP); (c) on a well-formed
topology, whenever `ChangeActiveBwp (bandId, ccId, newBwpId)` succeeds there
are band/carrier indices addressing a carrier with id `ccId` inside a band
with id `bandId` for which a subsequent `GetActiveBwpInfo` lookup returns a
BWP whose id is `newBwpId`. -/
theorem C6_activeBwp_resolution :
    (∀ (cr : ComponentCarrierBandwidthPartCreator) (bi ci : Nat)
      (bwp : ComponentCarrierBandwidthPartElement),
      GetActiveBwpInfo cr bi ci = Except.ok bwp →
      bwp.m_bwpId = ((cr.m_bands.getD bi default).m_cc.getD ci default).m_activeBwp
      ∧ bwp ∈ ((cr.m_bands.getD bi default).m_cc.getD ci default).m_bwp)
    ∧ (∀ (cr : ComponentCarrierBandwidthPartCreator) (bi ci : Nat),
      (∀ b ∈ ((cr.m_bands.getD bi default).m_cc.getD ci default).m_bwp,
        b.m_bwpId ≠ ((cr.m_bands.getD bi default).m_cc.getD ci default).m_activeBwp) →
      ∃ e, GetActiveBwpInfo cr bi ci = Except.error e)
    ∧ (∀ (cr : ComponentCarrierBandwidthPartCreator) (bandId ccId newId : Nat)
        (cr' : ComponentCarrierBandwidthPartCreator),
      creatorWellFormed cr →
      ChangeActiveBwp cr bandId ccId newId = Except.ok cr' →
      ∃ bi ci bwp,
        (cr'.m_bands.getD bi default).m_bandId = bandId
        ∧ ((cr'.m_bands.getD bi default).m_cc.getD ci default).m_ccId = ccId
        ∧ GetActiveBwpInfo cr' bi ci = Except.ok bwp
        ∧ bwp.m_bwpId = newId) := by
  refine ⟨?_, ?_, ?_⟩
  · intro cr bi ci bwp h
    simp only [GetActiveBwpInfo] at h
    split at h
    · exact absurd h (by simp)
    · split at h
      · exact absurd h (by simp)
      · split at h
        · exact absurd h (by simp)
        · split at h
          · exact absurd h (by simp)
          · split at h
            · rename_i bwp' hf
              cases h
              have hp := List.find?_some hf
              have hm := List.mem_of_find?_eq_some hf
              exact ⟨by simpa using hp, hm⟩
            · exact absurd h (by simp)
  · intro cr bi ci hnone
    simp only [GetActiveBwpInfo]
    split
    · exact ⟨_, rfl⟩
    · split
      · exact ⟨_, rfl⟩
      · split
        · exact ⟨_, rfl⟩
        · split
          · exact ⟨_, rfl⟩
          · split
            · rename_i bwp' hf
              have hp := List.find?_some hf
              have hm := List.mem_of_find?_eq_some hf
              exact absurd (by simpa using hp) (hnone bwp' hm)
            · exact ⟨_, rfl⟩
  · intro cr bandId ccId newId cr' hwf h
    unfold ChangeActiveBwp at h
    cases hb : changeActiveBwpInBands bandId ccId newId cr.m_bands with
    | none => rw [hb] at h; exact absurd h (by simp)
    | some bands =>
      rw [hb] at h
      have hcr' : cr' = { cr with m_bands := bands } := by cases h; rfl
      subst hcr'
      obtain ⟨bi, ccs', hbi, hbid, hccs, hbset⟩ :=
        changeActiveBwpInBands_some bandId ccId newId cr.m_bands bands hb
      obtain ⟨ci, hci, hcid, hany, hcset⟩ :=
        changeActiveBwpInCcs_some ccId newId
          (cr.m_bands.getD bi default).m_cc ccs' hccs
      set band := cr.m_bands.getD bi default with hband
      set cc := band.m_cc.getD ci default with hcc
      have hbands' : bands.getD bi default = { band with m_cc := ccs' } := by
        rw [hbset, List.getD_eq_getElem?_getD, List.getElem?_set_self
          (by simpa using hbi)]
        rfl
      have hccs'at : ccs'.getD ci default = { cc with m_activeBwp := newId } := by
        rw [hcset, List.getD_eq_getElem?_getD, List.getElem?_set_self
          (by simpa using hci)]
        rfl
      obtain ⟨b0, hb0mem, hb0id⟩ := List.any_eq_true.mp hany
      cases hf : cc.m_bwp.find? (fun b => b.m_bwpId == newId) with
      | none =>
        exact absurd hb0id (by simpa using List.find?_eq_none.mp hf b0 hb0mem)
      | some bwp =>
        refine ⟨bi, ci, bwp, ?_, ?_, ?_, ?_⟩
        · rw [show ({ cr with m_bands := bands } :
            ComponentCarrierBandwidthPartCreator).m_bands = bands from rfl,
            hbands']
          exact hbid
        · rw [show ({ cr with m_bands := bands } :
            ComponentCarrierBandwidthPartCreator).m_bands = bands from rfl,
            hbands']
          show (ccs'.getD ci default).m_ccId = ccId
          rw [hccs'at]
          exact hcid
        · apply getActiveBwpInfo_ok_of
          · simpa [hbset] using hbi
          · calc bi < cr.m_bands.length := hbi
              _ ≤ cr.m_maxBands := hwf.1
          · show ci < (bands.getD bi default).m_cc.length
            rw [hbands']
            show ci < ccs'.length
            rw [hcset]
            simpa using hci
          · show ci < (bands.getD bi default).m_numCarriers
            rw [hbands']
            show ci < band.m_numCarriers
            have hmem : band ∈ cr.m_bands := by
              rw [hband, List.getD_eq_getElem?_getD,
                List.getElem?_eq_getElem hbi]
              exact List.getElem_mem hbi
            rw [hwf.2 band hmem]
            exact hci
          · show ((bands.getD bi default).m_cc.getD ci default).m_bwp.find?
                (fun b => b.m_bwpId
                  == ((bands.getD bi default).m_cc.getD ci default).m_activeBwp)
                = some bwp
            rw [hbands']
            show (ccs'.getD ci default).m_bwp.find?
                (fun b => b.m_bwpId == (ccs'.getD ci default).m_activeBwp)
                = some bwp
            rw [hccs'at]
            exact hf
        · have := List.find?_some hf
          simpa using this

/-- C6 input: a topology with one band (id 0) holding one carrier (id 0) with
two BWPs (ids 0 and 2), BWP 0 initially active. -/
def c6cr : ComponentCarrierBandwidthPartCreator :=
  { m_maxBands := 1,
    m_bands :=
      [mkBand 0 0 300000000
        [{ m_ccId := 0, m_primaryCc := CcState.PRIMARY,
           m_centralFrequency := 150000000, m_lowerFrequency := 0,
           m_higherFrequency := 300000000, m_bandwidth := 300000000,
           m_activeBwp := 0,
           m_bwp := [mkBwp 0 0 100000000 100000000,
                     mkBwp 2 150000000 250000000 100000000] }]],
    m_numBands := 1, m_numCcs := 1, m_numBwps := 2 }

/-- C6 witness: changing the active BWP of `c6cr` to id 2 succeeds, and the
resolution theorem yields indices at which the lookup returns BWP id 2. -/
theorem C6_activeBwp_resolution_witness :
    ∃ bi ci bwp,
      (((ChangeActiveBwp c6cr 0 0 2).toOption.getD c6cr).m_bands.getD bi
          default).m_bandId = 0
      ∧ ((((ChangeActiveBwp c6cr 0 0 2).toOption.getD c6cr).m_bands.getD bi
          default).m_cc.getD ci default).m_ccId = 0
      ∧ GetActiveBwpInfo ((ChangeActiveBwp c6cr 0 0 2).toOption.getD c6cr) bi ci
          = Except.ok bwp
      ∧ bwp.m_bwpId = 2 :=
  C6_activeBwp_resolution.2.2 c6cr 0 0 2
    ((ChangeActiveBwp c6cr 0 0 2).toOption.getD c6cr) (by decide) rfl

/-! ### C4: the abort conditions of `CheckBwpsInCc` -/

/-- The BWP scan aborts as soon as some BWP leaves the carrier bounds. -/
theorem bwpLimitScan_error (cc : ComponentCarrierInfo) :
    ∀ (l : List ComponentCarrierBandwidthPartElement) (total : Nat) (af : Bool),
      (∃ b ∈ l, b.m_higherFrequency > cc.m_higherFrequency
        ∨ b.m_lowerFrequency < cc.m_lowerFrequency) →
      bwpLimitScan cc l total af = Except.error "BWP part is out of the CC" := by
  intro l
  induction l with
  | nil => intro total af h; exact absurd h (by simp)
  | cons b rest ih =>
    intro total af h
    simp only [bwpLimitScan]
    by_cases hb : b.m_higherFrequency > cc.m_higherFrequency
        ∨ b.m_lowerFrequency < cc.m_lowerFrequency
    · rw [if_pos hb]
    · rw [if_neg hb]
      apply ih
      rcases h with ⟨b', hb', hoob⟩
      rcases List.mem_cons.mp hb' with rfl | hmem
      · exact absurd hoob hb
      · exact ⟨b', hmem, hoob⟩

/-- When every BWP stays inside the carrier bounds, the scan returns the
`uint32_t` bandwidth total and whether some BWP carries the active id. -/
theorem bwpLimitScan_ok (cc : ComponentCarrierInfo) :
    ∀ (l : List ComponentCarrierBandwidthPartElement) (total : Nat) (af : Bool),
      total < U32 →
      (∀ b ∈ l, ¬(b.m_higherFrequency > cc.m_higherFrequency
        ∨ b.m_lowerFrequency < cc.m_lowerFrequency)) →
      bwpLimitScan cc l total af
        = Except.ok ((total + (l.map (fun b => b.m_bandwidth)).sum) % U32,
            af || l.any (fun b => b.m_bwpId == cc.m_activeBwp)) := by
  intro l
  induction l with
  | nil =>
    intro total af htotal h
    simp [bwpLimitScan, Nat.mod_eq_of_lt htotal]
  | cons b rest ih =>
    intro total af htotal h
    simp only [bwpLimitScan]
    rw [if_neg (h b (by simp))]
    rw [ih _ _ (Nat.mod_lt _ (by unfold U32; omega))
      (fun b' hb' => h b' (by simp [hb']))]
    simp only [List.map_cons, List.sum_cons, List.any_cons, Nat.mod_add_mod,
      Bool.or_assoc]
    rw [Nat.add_assoc]

/-- The adjacent-overlap check is clean exactly when adjacent BWPs of the
(frequency-sorted) list are pairwise non-overlapping. -/
theorem bwpAdjacentOverlap_eq_false_iff :
    ∀ l : List ComponentCarrierBandwidthPartElement,
      bwpAdjacentOverlap l = false
        ↔ List.Chain' (fun a b => a.m_higherFrequency ≤ b.m_lowerFrequency) l := by
  intro l
  induction l with
  | nil => simp [bwpAdjacentOverlap]
  | cons a tail ih =>
    cases tail with
    | nil => simp [bwpAdjacentOverlap]
    | cons b rest =>
      rw [List.chain'_cons, ← ih]
      simp only [bwpAdjacentOverlap, Bool.or_eq_false_iff, decide_eq_false_iff_not,
        not_lt]

/-- The adjacent-duplicate-id check is clean exactly when adjacent BWPs of the
(id-sorted) list have distinct ids. -/
theorem bwpAdjacentDupId_eq_false_iff :
    ∀ l : List ComponentCarrierBandwidthPartElement,
      bwpAdjacentDupId l = false
        ↔ List.Chain' (fun a b => a.m_bwpId ≠ b.m_bwpId) l := by
  intro l
  induction l with
  | nil => simp [bwpAdjacentDupId]
  | cons a tail ih =>
    cases tail with
    | nil => simp [bwpAdjacentDupId]
    | cons b rest =>
      rw [List.chain'_cons, ← ih]
      simp only [bwpAdjacentDupId, Bool.or_eq_false_iff, beq_eq_false_iff_ne,
        ne_eq]

/-- Strict id order on BWPs. -/
def bwpIdLt (a b : ComponentCarrierBandwidthPartElement) : Prop :=
  a.m_bwpId < b.m_bwpId

instance : IsTotal ComponentCarrierBandwidthPartElement BwpIdCompare :=
  ⟨fun a b => Nat.le_total a.m_bwpId b.m_bwpId⟩

instance : IsTrans ComponentCarrierBandwidthPartElement BwpIdCompare :=
  ⟨fun _ _ _ hab hbc => Nat.le_trans hab hbc⟩

instance : IsTrans ComponentCarrierBandwidthPartElement bwpIdLt :=
  ⟨fun _ _ _ hab hbc => Nat.lt_trans hab hbc⟩

/-- Adjacent `≤` together with adjacent `≠` on the ids gives adjacent `<`. -/
theorem chain'_bwpIdLt :
    ∀ l : List ComponentCarrierBandwidthPartElement,
      List.Chain' BwpIdCompare l →
      List.Chain' (fun a b => a.m_bwpId ≠ b.m_bwpId) l →
      List.Chain' bwpIdLt l := by
  intro l
  induction l with
  | nil => intro _ _; exact List.chain'_nil
  | cons a tail ih =>
    cases tail with
    | nil => intro _ _; exact List.chain'_singleton a
    | cons b rest =>
      intro h1 h2
      rw [List.chain'_cons] at h1 h2 ⊢
      exact ⟨Nat.lt_of_le_of_ne h1.1 h2.1, ih h1.2 h2.2⟩

/-- An adjacent duplicate id refutes distinctness of the mapped ids. -/
theorem not_nodup_of_bwpAdjacentDupId :
    ∀ l : List ComponentCarrierBandwidthPartElement,
      bwpAdjacentDupId l = true → ¬ (l.map (fun b => b.m_bwpId)).Nodup := by
  intro l
  induction l with
  | nil => intro h; simp [bwpAdjacentDupId] at h
  | cons a tail ih =>
    cases tail with
    | nil => intro h; simp [bwpAdjacentDupId] at h
    | cons b rest =>
      intro h hnd
      have h' : (a.m_bwpId == b.m_bwpId) = true
          ∨ bwpAdjacentDupId (b :: rest) = true := by
        rw [show bwpAdjacentDupId (a :: b :: rest)
            = ((a.m_bwpId == b.m_bwpId) || bwpAdjacentDupId (b :: rest))
          from rfl] at h
        exact Bool.or_eq_true_iff.mp h
      rcases h' with hdup | hrec
      · have heq : a.m_bwpId = b.m_bwpId := by simpa using hdup
        have hnotmem := (List.nodup_cons.mp hnd).1
        apply hnotmem
        simp only [List.map_cons]
        rw [heq]
        exact List.mem_cons_self _ _
      · exact ih hrec (List.nodup_cons.mp hnd).2

/-- The duplicate-id check of `CheckBwpsInCc` (run on the id-sorted list) is
clean exactly when the BWP ids of the original list are pairwise distinct. -/
theorem bwpDupIdCheck_iff (l : List ComponentCarrierBandwidthPartElement) :
    bwpAdjacentDupId (l.insertionSort BwpIdCompare) = false
      ↔ (l.map (fun b => b.m_bwpId)).Nodup := by
  have hperm : (l.insertionSort BwpIdCompare).Perm l :=
    List.perm_insertionSort BwpIdCompare l
  have hnd : ((l.insertionSort BwpIdCompare).map (fun b => b.m_bwpId)).Nodup
      ↔ (l.map (fun b => b.m_bwpId)).Nodup :=
    (hperm.map (fun b => b.m_bwpId)).nodup_iff
  constructor
  · intro h
    rw [← hnd]
    have hsorted : List.Chain' BwpIdCompare (l.insertionSort BwpIdCompare) :=
      (List.sorted_insertionSort BwpIdCompare l).chain'
    have hne := (bwpAdjacentDupId_eq_false_iff _).mp h
    have hlt := chain'_bwpIdLt _ hsorted hne
    have hpw : List.Pairwise bwpIdLt (l.insertionSort BwpIdCompare) :=
      List.chain'_iff_pairwise.mp hlt
    rw [List.Nodup, List.pairwise_map]
    exact hpw.imp (fun hab => Nat.ne_of_lt hab)
  · intro h
    by_cases hdup : bwpAdjacentDupId (l.insertionSort BwpIdCompare) = true
    · exact absurd (hnd.mpr h) (not_nodup_of_bwpAdjacentDupId _ hdup)
    · simpa using hdup

/-- C4: `CheckBwpsInCc` accepts a carrier exactly when none of the six abort
conditions of the claim holds: BWP count outside `[1, 4]`; a BWP outside the
carrier's frequency bounds; aggregate BWP bandwidth exceeding the carrier
bandwidth; the carrier's active-BWP id absent from its BWPs; two BWPs adjacent
in ascending-frequency order overlapping; or two BWPs sharing an id.  (The
bandwidth total is accumulated in a `uint32_t`; the hypothesis keeps the
genuine total inside its range.) -/
theorem C4_checkBwpsInCc_iff (cc : ComponentCarrierInfo)
    (hsum : (cc.m_bwp.map (fun b => b.m_bandwidth)).sum < U32) :
    (∃ cc', CheckBwpsInCc cc = Except.ok cc') ↔
      ¬ ((cc.m_bwp.length < 1 ∨ 4 < cc.m_bwp.length)
        ∨ (∃ b ∈ cc.m_bwp, b.m_higherFrequency > cc.m_higherFrequency
            ∨ b.m_lowerFrequency < cc.m_lowerFrequency)
        ∨ cc.m_bandwidth < (cc.m_bwp.map (fun b => b.m_bandwidth)).sum
        ∨ (∀ b ∈ cc.m_bwp, b.m_bwpId ≠ cc.m_activeBwp)
        ∨ ¬ List.Chain' (fun a b => a.m_higherFrequency ≤ b.m_lowerFrequency)
            (cc.m_bwp.insertionSort BwpFrequencyCompare)
        ∨ ¬ (cc.m_bwp.map (fun b => b.m_bwpId)).Nodup) := by
  have hperm : (cc.m_bwp.insertionSort BwpFrequencyCompare).Perm cc.m_bwp :=
    List.perm_insertionSort BwpFrequencyCompare cc.m_bwp
  simp only [CheckBwpsInCc]
  by_cases h1 : cc.m_bwp.length > 4 ∨ cc.m_bwp.length < 1
  · rw [if_pos h1]
    constructor
    · rintro ⟨cc', hcc'⟩; exact absurd hcc' (by simp)
    · intro hn; exact absurd (Or.inl (by omega)) hn
  · rw [if_neg h1]
    by_cases h2 : ∃ b ∈ cc.m_bwp, b.m_higherFrequency > cc.m_higherFrequency
        ∨ b.m_lowerFrequency < cc.m_lowerFrequency
    · obtain ⟨b, hb, hoob⟩ := h2
      rw [bwpLimitScan_error cc _ 0 false ⟨b, hperm.mem_iff.mpr hb, hoob⟩]
      constructor
      · rintro ⟨cc', hcc'⟩; exact absurd hcc' (by simp)
      · intro hn; exact absurd (Or.inr (Or.inl ⟨b, hb, hoob⟩)) hn
    · have h2s : ∀ b ∈ cc.m_bwp.insertionSort BwpFrequencyCompare,
          ¬(b.m_higherFrequency > cc.m_higherFrequency
            ∨ b.m_lowerFrequency < cc.m_lowerFrequency) :=
        fun b hb hoob => h2 ⟨b, hperm.mem_iff.mp hb, hoob⟩
      rw [bwpLimitScan_ok cc _ 0 false (by unfold U32; omega) h2s]
      have hSumPerm : ((cc.m_bwp.insertionSort BwpFrequencyCompare).map
            (fun b => b.m_bandwidth)).sum
          = (cc.m_bwp.map (fun b => b.m_bandwidth)).sum :=
        (hperm.map (fun b => b.m_bandwidth)).sum_eq
      rw [hSumPerm, Nat.zero_add, Nat.mod_eq_of_lt hsum, Bool.false_or]
      simp only []
      by_cases h3 : (cc.m_bwp.map (fun b => b.m_bandwidth)).sum > cc.m_bandwidth
      · rw [if_pos h3]
        constructor
        · rintro ⟨cc', hcc'⟩; exact absurd hcc' (by simp)
        · intro hn; exact absurd (Or.inr (Or.inr (Or.inl h3))) hn
      · rw [if_neg h3]
        by_cases h4 : (cc.m_bwp.insertionSort BwpFrequencyCompare).any
            (fun b => b.m_bwpId == cc.m_activeBwp) = true
        · rw [if_neg (by simp [h4])]
          by_cases h5 : bwpAdjacentOverlap
              (cc.m_bwp.insertionSort BwpFrequencyCompare) = true
          · rw [if_pos h5]
            constructor
            · rintro ⟨cc', hcc'⟩; exact absurd hcc' (by simp)
            · intro hn
              exfalso
              apply hn
              refine Or.inr (Or.inr (Or.inr (Or.inr (Or.inl ?_))))
              intro hch
              rw [← bwpAdjacentOverlap_eq_false_iff] at hch
              rw [h5] at hch
              exact absurd hch (by simp)
          · rw [if_neg h5]
            by_cases h6 : bwpAdjacentDupId
                ((cc.m_bwp.insertionSort BwpFrequencyCompare).insertionSort
                  BwpIdCompare) = true
            · rw [if_pos h6]
              constructor
              · rintro ⟨cc', hcc'⟩; exact absurd hcc' (by simp)
              · intro hn
                exfalso
                apply hn
                refine Or.inr (Or.inr (Or.inr (Or.inr (Or.inr ?_))))
                intro hnd
                have hnd' : ((cc.m_bwp.insertionSort BwpFrequencyCompare).map
                    (fun b => b.m_bwpId)).Nodup :=
                  ((hperm.map (fun b => b.m_bwpId)).nodup_iff).mpr hnd
                have := (bwpDupIdCheck_iff
                  (cc.m_bwp.insertionSort BwpFrequencyCompare)).mpr hnd'
                rw [h6] at this
                exact absurd this (by simp)
            · rw [if_neg h6]
              constructor
              · intro _
                intro hd
                rcases hd with hd | hd | hd | hd | hd | hd
                · omega
                · exact h2 hd
                · exact h3 hd
                · obtain ⟨b, hb, hbeq⟩ := List.any_eq_true.mp h4
                  exact hd b (hperm.mem_iff.mp hb) (by simpa using hbeq)
                · exact hd ((bwpAdjacentOverlap_eq_false_iff _).mp
                    (by simpa using h5))
                · apply hd
                  have := (bwpDupIdCheck_iff
                    (cc.m_bwp.insertionSort BwpFrequencyCompare)).mp
                    (by simpa using h6)
                  exact ((hperm.map (fun b => b.m_bwpId)).nodup_iff).mp this
              · intro _
                exact ⟨_, rfl⟩
        · rw [if_pos (by simpa using h4)]
          constructor
          · rintro ⟨cc', hcc'⟩; exact absurd hcc' (by simp)
          · intro hn
            exfalso
            apply hn
            refine Or.inr (Or.inr (Or.inr (Or.inl ?_)))
            intro b hb hbeq
            apply h4
            rw [List.any_eq_true]
            exact ⟨b, hperm.mem_iff.mpr hb, by simpa using hbeq⟩

/-- C4 input: a carrier on `[0, 300e6]` with two valid BWPs (ids 0 and 1),
BWP 0 active. -/
def c4cc : ComponentCarrierInfo :=
  { m_ccId := 0, m_primaryCc := CcState.PRIMARY,
    m_centralFrequency := 150000000, m_lowerFrequency := 0,
    m_higherFrequency := 300000000, m_bandwidth := 300000000,
    m_activeBwp := 0,
    m_bwp := [mkBwp 0 0 100000000 100000000,
              mkBwp 1 150000000 250000000 100000000] }

/-- C4 witness: the abort-condition equivalence applied to `c4cc`. -/
theorem C4_checkBwpsInCc_iff_witness :
    ((c4cc.m_bwp.map (fun b => b.m_bandwidth)).sum < U32)
    ∧ ((∃ cc', CheckBwpsInCc c4cc = Except.ok cc') ↔
      ¬ ((c4cc.m_bwp.length < 1 ∨ 4 < c4cc.m_bwp.length)
        ∨ (∃ b ∈ c4cc.m_bwp, b.m_higherFrequency > c4cc.m_higherFrequency
            ∨ b.m_lowerFrequency < c4cc.m_lowerFrequency)
        ∨ c4cc.m_bandwidth < (c4cc.m_bwp.map (fun b => b.m_bandwidth)).sum
        ∨ (∀ b ∈ c4cc.m_bwp, b.m_bwpId ≠ c4cc.m_activeBwp)
        ∨ ¬ List.Chain' (fun a b => a.m_higherFrequency ≤ b.m_lowerFrequency)
            (c4cc.m_bwp.insertionSort BwpFrequencyCompare)
        ∨ ¬ (c4cc.m_bwp.map (fun b => b.m_bwpId)).Nodup)) :=
  ⟨by decide, C4_checkBwpsInCc_iff c4cc (by decide)⟩

end LenaSpec
